import Mathlib

/-!
Verification of the turn-based multi-model dialogue system (`src/base.py`).

The embedding is shallow: the two Python classes `ModelClient` and
`DialogueOrchestrator` become Lean structures, and the HTTP chat-completion
transport is abstracted as an oracle mapping each submitted payload to an
observed outcome (`CallResult`).  All state mutation is made explicit by
threading the structures through the operations.
-/

/-- A chat message record `{role, content}` as used both in a participant's
conversation history and in the request body. -/
structure Msg where
  role : String
  content : String
deriving DecidableEq, Repr

/-- Structure `ModelClient` (base.py lines 8-13): display name, backing model
identifier, system prompt, and the mutable conversation history. -/
structure ModelClient where
  name : String
  model_name : String
  system_prompt : String
  conversation_history : List Msg
deriving DecidableEq, Repr

/-- Constructor `ModelClient.__init__` (lines 9-13): `system_prompt` defaults to `""` at
the Python call sites; the conversation history always starts empty. -/
def ModelClient.init (name model_name system_prompt : String) : ModelClient :=
  { name := name, model_name := model_name, system_prompt := system_prompt,
    conversation_history := [] }

/-- Outcome of the HTTP POST as observable from inside the `try` block of
`generate_response` (lines 38-58):
* `ok reply` — status 200 and a well-formed body from which
  `result["choices"][0]["message"]["content"]` was extracted as `reply`;
* `httpError status` — the response arrived with a non-200 status;
* `exn msg` — an exception was raised inside the `try` block: a transport
  failure, or a 200 response whose body is malformed (the field extraction
  happens inside the `try`, so a missing field also lands here). -/
inductive CallResult where
  | ok (reply : String)
  | httpError (status : Nat)
  | exn (msg : String)
deriving DecidableEq, Repr

/-- The JSON request body (lines 30-36).  `temperature` (a float, default
0.7) is irrelevant to every claim and floating point is outside the
embedding, so it is omitted; the other fields are carried verbatim. -/
structure Payload where
  model : String
  messages : List Msg
  max_tokens : Nat
  stream : Bool
deriving DecidableEq, Repr

/-- The network oracle: what the endpoint does with one submitted payload. -/
abbrev NetCall := Payload → CallResult

/-- Message-list construction of `generate_response` (lines 18-28): start
empty, append the system prompt if it is truthy (non-empty), extend with the
conversation history, append the current prompt as a user turn. -/
def ModelClient.build_messages (self : ModelClient) (prompt : String) : List Msg :=
  let messages : List Msg := []
  let messages :=
    if self.system_prompt ≠ "" then
      messages ++ [{ role := "system", content := self.system_prompt }]
    else messages
  let messages := messages ++ self.conversation_history
  messages ++ [{ role := "user", content := prompt }]

/-- The payload submitted by `generate_response` (lines 30-36); `max_tokens`
is 500 at every call site in this repository (the parameter default). -/
def ModelClient.build_payload (self : ModelClient) (prompt : String)
    (max_tokens : Nat) : Payload :=
  { model := self.model_name, messages := self.build_messages prompt,
    max_tokens := max_tokens, stream := false }

/-- Operation `ModelClient.generate_response` (lines 15-58): submit the payload, and
* on a 200 response with well-formed body, append the prompt as a user turn
  and the reply as an assistant turn to the history, trim the history to its
  last 20 entries when it exceeds 20 (`history[-20:]`), and return the reply;
* on a non-200 status return `"Error: HTTP <status>"`;
* on an exception return `"Error: <str(e)>"`;
in the failure cases the history is untouched.  Returns the updated client
together with the returned string. -/
def ModelClient.generate_response (self : ModelClient) (net : NetCall)
    (prompt : String) : ModelClient × String :=
  let payload := self.build_payload prompt 500
  match net payload with
  | CallResult.ok assistant_response =>
      let history := self.conversation_history
        ++ [{ role := "user", content := prompt },
            { role := "assistant", content := assistant_response }]
      let history :=
        if history.length > 20 then history.drop (history.length - 20) else history
      ({ self with conversation_history := history }, assistant_response)
  | CallResult.httpError status => (self, "Error: HTTP " ++ toString status)
  | CallResult.exn e => (self, "Error: " ++ e)

/-- Spec §4.1 request construction, stated in the spec's own terms:
"[system instruction, if present] + [existing memory, in order] +
[new user turn = prompt]". -/
def specMessageList (c : ModelClient) (prompt : String) : List Msg :=
  (if c.system_prompt ≠ "" then
    [{ role := "system", content := c.system_prompt }]
  else [])
    ++ c.conversation_history ++ [{ role := "user", content := prompt }]

/-- One record of the orchestrator's `dialogue_history` (lines 90-94). -/
structure TranscriptEntry where
  round : Nat
  speaker : String
  content : String
deriving DecidableEq, Repr

/-- Structure `DialogueOrchestrator` (lines 60-68).  The `models` dict is
represented by its three role slots — `run_dialogue` accesses exactly the
keys "model_a", "model_b" and "commentator", and every claim concerns runs
with exactly these roles registered. -/
structure DialogueOrchestrator where
  base_url : String
  model_a : ModelClient
  model_b : ModelClient
  commentator : ModelClient
  dialogue_history : List TranscriptEntry
deriving DecidableEq, Repr

/-- Constructor `DialogueOrchestrator.__init__` (`base_url.rstrip('/')`, empty
transcript) followed by the three `add_model` registrations. -/
def DialogueOrchestrator.init (base_url : String)
    (a b cm : ModelClient) : DialogueOrchestrator :=
  { base_url := base_url.dropRightWhile (fun ch => ch = '/'),
    model_a := a, model_b := b, commentator := cm, dialogue_history := [] }

/-- The commentary prompt synthesized at lines 113-121 (the f-string,
whitespace included: the source lines carry 20 spaces of indentation). -/
def recent_exchange (nameA respA nameB respB : String) : String :=
  "\n                    Recent exchange:\n                    "
    ++ nameA ++ ": " ++ respA
    ++ "\n                    \n                    "
    ++ nameB ++ ": " ++ respB
    ++ "\n                    \n                    Please provide commentary on this exchange, analyzing the dialogue quality, \n                    key points, areas of agreement/disagreement, and interesting developments.\n                    "

/-- The final summary prompt synthesized at lines 139-149 (the f-string,
whitespace included: the source lines carry 8 spaces of indentation). -/
def final_summary (nameA nameB topic : String) : String :=
  "\n        Please provide a comprehensive analysis of the entire dialogue between \n        "
    ++ nameA ++ " and " ++ nameB ++ " on the topic: " ++ topic
    ++ "\n        \n        Key aspects to analyze:\n        - Overall dialogue quality and coherence\n        - Main themes and arguments presented\n        - Evolution of the discussion\n        - Notable insights or interesting points\n        - Areas where the models complemented or challenged each other\n        "

/-- The Python exceptions `run_dialogue` itself can raise in the embedded
fragment: evaluating `x % 0` raises `ZeroDivisionError` (line 109 when
`commentary_frequency == 0`). -/
inductive RunError where
  | zeroDivision
deriving DecidableEq, Repr

/-- State threaded through `run_dialogue`.  `orch` and `current_prompt`
mirror the program state (`self` and the local `current_prompt`).  `calls`
indexes the network oracle: call number `i` of the run is answered by
`net i payload`, which models an endpoint whose behaviour may vary over
time.  The remaining fields are observation-only instrumentation recording
what the run did (nothing reads them): `a_prompts` records each prompt
passed to the model_a participant, `b_replies` each reply returned by the
model_b participant, `commentary_rounds` the 1-based round numbers at which
in-loop commentary fired, and `commentator_calls` the number of commentator
invocations (in-loop and final). -/
structure RunState where
  orch : DialogueOrchestrator
  current_prompt : String
  calls : Nat
  a_prompts : List String
  b_replies : List String
  commentary_rounds : List Nat
  commentator_calls : Nat
deriving DecidableEq, Repr

/-- A time-indexed network oracle for a whole run. -/
abbrev RunNet := Nat → NetCall

/-- One iteration of the `for round_num in range(rounds)` body (lines
80-133); `round_num` is the 0-based Python loop index.  Primary A responds
to `current_prompt`, its turn is appended to the transcript; primary B
responds to A's reply, its turn is appended.  Then line 109 evaluates
`(round_num + 1) % commentary_frequency`: with `commentary_frequency = 0`
this raises `ZeroDivisionError` — after both appends, before
`current_prompt` is reassigned — which the error branch reproduces.
Otherwise, when the round index is a multiple of the frequency, the
commentator is invoked on the synthesized `recent_exchange` prompt (its
reply is printed, not stored), and finally `current_prompt := response_b`. -/
def runRound (net : RunNet) (commentary_frequency : Nat) (round_num : Nat)
    (s : RunState) : RunState × Option RunError :=
  let ra := s.orch.model_a.generate_response (net s.calls) s.current_prompt
  let response_a := ra.2
  let orch1 := { s.orch with
    model_a := ra.1,
    dialogue_history := s.orch.dialogue_history
      ++ [({ round := round_num + 1, speaker := "model_a",
              content := response_a } : TranscriptEntry)] }
  let rb := orch1.model_b.generate_response (net (s.calls + 1)) response_a
  let response_b := rb.2
  let orch2 := { orch1 with
    model_b := rb.1,
    dialogue_history := orch1.dialogue_history
      ++ [({ round := round_num + 1, speaker := "model_b",
              content := response_b } : TranscriptEntry)] }
  let s2 := { s with
    orch := orch2,
    calls := s.calls + 2,
    a_prompts := s.a_prompts ++ [s.current_prompt],
    b_replies := s.b_replies ++ [response_b] }
  if commentary_frequency = 0 then
    (s2, some RunError.zeroDivision)
  else if (round_num + 1) % commentary_frequency = 0 then
    let rc := s2.orch.commentator.generate_response (net s2.calls)
      (recent_exchange s2.orch.model_a.name response_a s2.orch.model_b.name response_b)
    ({ s2 with
       orch := { s2.orch with commentator := rc.1 },
       calls := s2.calls + 1,
       current_prompt := response_b,
       commentary_rounds := s2.commentary_rounds ++ [round_num + 1],
       commentator_calls := s2.commentator_calls + 1 }, none)
  else
    ({ s2 with current_prompt := response_b }, none)

/-- The round loop of `run_dialogue`: run `rounds` further iterations
starting at 0-based loop index `round_num`, stopping early if an iteration
raises. -/
def runLoop (net : RunNet) (commentary_frequency : Nat) :
    Nat → Nat → RunState → RunState × Option RunError
  | _, 0, s => (s, none)
  | round_num, rounds + 1, s =>
      match runRound net commentary_frequency round_num s with
      | (s1, some e) => (s1, some e)
      | (s1, none) => runLoop net commentary_frequency (round_num + 1) rounds s1

/-- Operation `DialogueOrchestrator.run_dialogue` (lines 70-155): run the round loop
from the initial topic; if no exception escaped the loop, synthesize the
final summary prompt and invoke the commentator once more (in a fresh
session — sessions are not modelled beyond the oracle).  The result pairs
the final state with `some e` when a Python exception propagates to the
caller.

`RunState.start` is the loop entry state: `current_prompt = initial_topic`
(line 78), no calls issued, empty instrumentation. -/
def RunState.start (orch : DialogueOrchestrator) (initial_topic : String) :
    RunState :=
  { orch := orch, current_prompt := initial_topic, calls := 0,
    a_prompts := [], b_replies := [], commentary_rounds := [],
    commentator_calls := 0 }

def DialogueOrchestrator.run_dialogue (orch : DialogueOrchestrator)
    (net : RunNet) (initial_topic : String)
    (rounds commentary_frequency : Nat) : RunState × Option RunError :=
  match runLoop net commentary_frequency 0 rounds
      (RunState.start orch initial_topic) with
  | (s, some e) => (s, some e)
  | (s, none) =>
      let rc := s.orch.commentator.generate_response (net s.calls)
        (final_summary s.orch.model_a.name s.orch.model_b.name initial_topic)
      ({ s with
         orch := { s.orch with commentator := rc.1 },
         calls := s.calls + 1,
         commentator_calls := s.commentator_calls + 1 }, none)

/-! ## Basic facts about `generate_response` -/

/-- On a failing call the client is returned unchanged. -/
theorem generate_response_fail_fst (c : ModelClient) (net : NetCall)
    (prompt : String)
    (h : ∀ r, net (c.build_payload prompt 500) ≠ CallResult.ok r) :
    (c.generate_response net prompt).1 = c := by
  cases hr : net (c.build_payload prompt 500) with
  | ok r => exact absurd hr (h r)
  | httpError status => simp [ModelClient.generate_response, hr]
  | exn e => simp [ModelClient.generate_response, hr]

/-- On a failing call the returned string starts with `"Error: "`. -/
theorem generate_response_fail_snd (c : ModelClient) (net : NetCall)
    (prompt : String)
    (h : ∀ r, net (c.build_payload prompt 500) ≠ CallResult.ok r) :
    ∃ m, (c.generate_response net prompt).2 = "Error: " ++ m := by
  cases hr : net (c.build_payload prompt 500) with
  | ok r => exact absurd hr (h r)
  | httpError status =>
      refine ⟨"HTTP " ++ toString status, ?_⟩
      simp only [ModelClient.generate_response, hr]
      have h2 : "Error: " ++ "HTTP " = "Error: HTTP " := by decide
      rw [← String.append_assoc, h2]
  | exn e =>
      refine ⟨e, ?_⟩
      simp [ModelClient.generate_response, hr]

/-- Claim C6: a failing response-generation call (transport failure,
non-200 status, or malformed body — i.e. any outcome other than
`CallResult.ok`) returns a synthetic error string, does not raise (it is a
total function of the observed outcome), and leaves the participant —
in particular its conversational memory — exactly unchanged. -/
theorem claim_C6_failure_no_memory_update (c : ModelClient) (net : NetCall)
    (prompt : String)
    (h : ∀ r, net (c.build_payload prompt 500) ≠ CallResult.ok r) :
    (c.generate_response net prompt).1 = c ∧
    ∃ m, (c.generate_response net prompt).2 = "Error: " ++ m :=
  ⟨generate_response_fail_fst c net prompt h,
   generate_response_fail_snd c net prompt h⟩

/-- Witness for C6 at a concrete failing call (HTTP 500). -/
theorem claim_C6_witness :
    (∀ r, (fun _ => CallResult.httpError 500 : NetCall)
        ((ModelClient.init "A" "m" "").build_payload "hi" 500)
        ≠ CallResult.ok r) ∧
    ((ModelClient.init "A" "m" "").generate_response
        (fun _ => CallResult.httpError 500) "hi").1 = ModelClient.init "A" "m" "" ∧
    ∃ m, ((ModelClient.init "A" "m" "").generate_response
        (fun _ => CallResult.httpError 500) "hi").2 = "Error: " ++ m :=
  ⟨fun _ hr => CallResult.noConfusion hr,
   claim_C6_failure_no_memory_update (ModelClient.init "A" "m" "")
     (fun _ => CallResult.httpError 500) "hi"
     (fun _ hr => CallResult.noConfusion hr)⟩

/-- Claim C7: the submitted message list is exactly
[system instruction, if present] ++ [memory, in order] ++ [new user turn],
and it is submitted in a single payload with `stream = false` against the
participant's bound model identifier. -/
theorem claim_C7_request_construction (c : ModelClient) (prompt : String) :
    (c.build_payload prompt 500).messages = specMessageList c prompt ∧
    (c.build_payload prompt 500).model = c.model_name ∧
    (c.build_payload prompt 500).stream = false := by
  refine ⟨?_, rfl, rfl⟩
  by_cases h : c.system_prompt = "" <;>
    simp [ModelClient.build_payload, ModelClient.build_messages,
      specMessageList, h]

/-- Claim C10: with the constructor-default empty system instruction no
system message is included — the submitted message list is exactly the
memory followed by the new user turn, identical to a participant with no
system instruction at all. -/
theorem claim_C10_empty_system_prompt (c : ModelClient) (prompt : String)
    (h : c.system_prompt = "") :
    c.build_messages prompt
      = c.conversation_history ++ [{ role := "user", content := prompt }] := by
  simp [ModelClient.build_messages, h]

/-- Witness for C10 at a concrete participant built with the default
(empty) system instruction. -/
theorem claim_C10_witness :
    (ModelClient.init "A" "m" "").system_prompt = "" ∧
    (ModelClient.init "A" "m" "").build_messages "hi"
      = (ModelClient.init "A" "m" "").conversation_history
        ++ [{ role := "user", content := "hi" }] :=
  ⟨rfl, claim_C10_empty_system_prompt (ModelClient.init "A" "m" "") "hi" rfl⟩

/-! ## Claim C1: the bounded-memory invariant -/

/-- The chronological message sequence of a list of (prompt, reply)
exchanges: each prompt as a user turn followed by its reply as an
assistant turn, oldest first. -/
def chronMsgs : List (String × String) → List Msg
  | [] => []
  | (p, r) :: xs =>
      { role := "user", content := p }
        :: { role := "assistant", content := r } :: chronMsgs xs

/-- Run a sequence of successful exchanges against a participant: for each
pair `(p, r)` the endpoint answers prompt `p` with reply `r`. -/
def applyExchanges (c : ModelClient) : List (String × String) → ModelClient
  | [] => c
  | (p, r) :: xs =>
      applyExchanges (c.generate_response (fun _ => CallResult.ok r) p).1 xs

theorem chronMsgs_length (xs : List (String × String)) :
    (chronMsgs xs).length = 2 * xs.length := by
  induction xs with
  | nil => rfl
  | cons hd tl ih =>
      obtain ⟨p, r⟩ := hd
      simp only [chronMsgs, List.length_cons, ih]
      ring

theorem chronMsgs_append (xs ys : List (String × String)) :
    chronMsgs (xs ++ ys) = chronMsgs xs ++ chronMsgs ys := by
  induction xs with
  | nil => rfl
  | cons hd tl ih =>
      obtain ⟨p, r⟩ := hd
      simp [chronMsgs, ih]

theorem chronMsgs_drop (k : Nat) (xs : List (String × String)) :
    chronMsgs (xs.drop k) = (chronMsgs xs).drop (2 * k) := by
  induction k generalizing xs with
  | zero => simp
  | succ k ih =>
      cases xs with
      | nil => simp [chronMsgs]
      | cons hd tl =>
          obtain ⟨p, r⟩ := hd
          have h2 : 2 * (k + 1) = 2 * k + 1 + 1 := by omega
          simp only [List.drop_succ_cons, ih tl, chronMsgs, h2, List.drop_succ_cons]

/-- A successful exchange on a participant whose memory is the rendering of
the pair list `ys` yields the rendering of `ys ++ [(p, r)]` with the oldest
pair evicted exactly when the updated memory would exceed 20 entries. -/
theorem generate_response_ok_trim (c : ModelClient) (p r : String)
    (ys : List (String × String)) (hc : c.conversation_history = chronMsgs ys) :
    (c.generate_response (fun _ => CallResult.ok r) p).1.conversation_history
      = chronMsgs ((ys ++ [(p, r)]).drop (ys.length + 1 - 10)) := by
  have hx : c.conversation_history
      ++ [{ role := "user", content := p }, { role := "assistant", content := r }]
      = chronMsgs (ys ++ [(p, r)]) := by
    rw [hc, chronMsgs_append]; rfl
  simp only [ModelClient.generate_response]
  rw [hx]
  have hlen : (chronMsgs (ys ++ [(p, r)])).length = 2 * (ys.length + 1) := by
    rw [chronMsgs_length]; simp
  by_cases hbig : (chronMsgs (ys ++ [(p, r)])).length > 20
  · rw [if_pos hbig, chronMsgs_drop, hlen]
    congr 1
    omega
  · rw [if_neg hbig, chronMsgs_drop]
    have : 2 * (ys.length + 1 - 10) = 0 := by omega
    rw [this, List.drop_zero]

/-- Invariant carried through a run of successful exchanges: if the memory
renders the pair list `ys` (at most 10 pairs), after the further exchanges
`xs` it renders the last `min(|ys| + |xs|, 10)` pairs of `ys ++ xs`. -/
theorem applyExchanges_history_aux :
    ∀ (xs : List (String × String)) (c : ModelClient)
      (ys : List (String × String)),
      c.conversation_history = chronMsgs ys → ys.length ≤ 10 →
      (applyExchanges c xs).conversation_history
        = chronMsgs ((ys ++ xs).drop (ys.length + xs.length - 10)) := by
  intro xs
  induction xs with
  | nil =>
      intro c ys hc hlen
      have hz : ys.length + ([] : List (String × String)).length - 10 = 0 := by
        simp; omega
      rw [applyExchanges, hz, List.drop_zero, List.append_nil, hc]
  | cons pr tl ih =>
      intro c ys hc hlen
      obtain ⟨p, r⟩ := pr
      have hstep := generate_response_ok_trim c p r ys hc
      have hlen' : ((ys ++ [(p, r)]).drop (ys.length + 1 - 10)).length ≤ 10 := by
        rw [List.length_drop]
        simp
        omega
      have hres := ih (c.generate_response (fun _ => CallResult.ok r) p).1
        ((ys ++ [(p, r)]).drop (ys.length + 1 - 10)) hstep hlen'
      rw [applyExchanges, hres]
      have hd : ys.length + 1 - 10 ≤ (ys ++ [(p, r)]).length := by
        rw [List.length_append, List.length_cons, List.length_nil]
        omega
      have hsplit : ((ys ++ [(p, r)]).drop (ys.length + 1 - 10) ++ tl)
          = ((ys ++ [(p, r)]) ++ tl).drop (ys.length + 1 - 10) := by
        rw [List.drop_append_of_le_length hd]
      rw [hsplit, List.drop_drop]
      have hassoc : (ys ++ [(p, r)]) ++ tl = ys ++ (p, r) :: tl := by simp
      rw [hassoc]
      have hidx : ys.length + 1 - 10
            + (((ys ++ [(p, r)]).drop (ys.length + 1 - 10)).length
                + tl.length - 10)
          = ys.length + ((p, r) :: tl).length - 10 := by
        rw [List.length_drop, List.length_append, List.length_cons,
          List.length_nil, List.length_cons]
        omega
      rw [hidx]

/-- Claim C1: after every sequence of N successful response-generation
calls, a freshly constructed participant's conversational memory is
exactly the chronological user/assistant rendering of the most recent
min(N, 10) (prompt, reply) pairs, oldest-first — hence its length is
min(2N, 20). -/
theorem claim_C1_memory_invariant (name model sys : String)
    (xs : List (String × String)) :
    (applyExchanges (ModelClient.init name model sys) xs).conversation_history
      = chronMsgs (xs.drop (xs.length - 10)) ∧
    (applyExchanges (ModelClient.init name model sys) xs).conversation_history.length
      = min (2 * xs.length) 20 := by
  have h := applyExchanges_history_aux xs (ModelClient.init name model sys) []
    rfl (by simp)
  simp only [List.nil_append, List.length_nil, Nat.zero_add] at h
  refine ⟨h, ?_⟩
  rw [h, chronMsgs_length, List.length_drop]
  omega

/-! ## Facts about one round of the dialogue loop -/

/-- The reply primary A produces in the round run from state `s`. -/
def roundRespA (net : RunNet) (s : RunState) : String :=
  (s.orch.model_a.generate_response (net s.calls) s.current_prompt).2

/-- The reply primary B produces in the round run from state `s`. -/
def roundRespB (net : RunNet) (s : RunState) : String :=
  (s.orch.model_b.generate_response (net (s.calls + 1)) (roundRespA net s)).2

theorem generate_response_name (c : ModelClient) (net : NetCall) (p : String) :
    (c.generate_response net p).1.name = c.name := by
  cases h : net (c.build_payload p 500) <;>
    simp [ModelClient.generate_response, h]

/-- Both primaries' turns are appended to the transcript in every round —
also in the round that raises on a zero commentary frequency, since the
appends precede line 109. -/
theorem runRound_hist (net : RunNet) (f n : Nat) (s : RunState) :
    (runRound net f n s).1.orch.dialogue_history
      = s.orch.dialogue_history
        ++ [{ round := n + 1, speaker := "model_a", content := roundRespA net s },
            { round := n + 1, speaker := "model_b", content := roundRespB net s }] := by
  simp only [runRound, roundRespA, roundRespB]
  split
  · simp
  · split <;> simp

/-- With a positive commentary frequency a round never raises. -/
theorem runRound_no_error (net : RunNet) (f n : Nat) (s : RunState)
    (hf : f ≠ 0) : (runRound net f n s).2 = none := by
  simp only [runRound]
  rw [if_neg hf]
  split <;> rfl

/-- With a zero commentary frequency every round raises `ZeroDivisionError`
at line 109. -/
theorem runRound_zero_raises (net : RunNet) (n : Nat) (s : RunState) :
    (runRound net 0 n s).2 = some RunError.zeroDivision := by
  simp [runRound]

/-- The instrumentation of a non-raising round: A was prompted with
`current_prompt`, B's reply becomes the next prompt and is recorded, and
the commentator fired exactly when `(n + 1) % f = 0`. -/
theorem runRound_ghosts (net : RunNet) (f n : Nat) (s : RunState)
    (hf : f ≠ 0) :
    (runRound net f n s).1.a_prompts = s.a_prompts ++ [s.current_prompt] ∧
    (runRound net f n s).1.b_replies = s.b_replies ++ [roundRespB net s] ∧
    (runRound net f n s).1.current_prompt = roundRespB net s ∧
    (runRound net f n s).1.commentary_rounds
      = s.commentary_rounds ++ (if (n + 1) % f = 0 then [n + 1] else []) ∧
    (runRound net f n s).1.commentator_calls
      = s.commentator_calls + (if (n + 1) % f = 0 then 1 else 0) := by
  simp only [runRound, roundRespA, roundRespB]
  rw [if_neg hf]
  split
  · rename_i hmod
    simp [hmod]
  · rename_i hmod
    simp [hmod]

/-- The commentator participant after a non-raising round: invoked on the
synthesized `recent_exchange` prompt exactly in commentary rounds,
untouched otherwise. -/
theorem runRound_commentator (net : RunNet) (f n : Nat) (s : RunState)
    (hf : f ≠ 0) :
    (runRound net f n s).1.orch.commentator
      = if (n + 1) % f = 0 then
          (s.orch.commentator.generate_response (net (s.calls + 2))
            (recent_exchange s.orch.model_a.name (roundRespA net s)
              s.orch.model_b.name (roundRespB net s))).1
        else s.orch.commentator := by
  simp only [runRound, roundRespA, roundRespB]
  rw [if_neg hf]
  split
  · simp [generate_response_name]
  · rfl

/-! ## The round loop -/

/-- Unfolding one non-raising loop iteration. -/
theorem runLoop_succ (net : RunNet) (f : Nat) (hf : f ≠ 0) (n k : Nat)
    (s : RunState) :
    runLoop net f n (k + 1) s = runLoop net f (n + 1) k (runRound net f n s).1 := by
  have hpair : runRound net f n s = ((runRound net f n s).1, none) := by
    rw [← runRound_no_error net f n s hf]
  simp only [runLoop]
  rw [hpair]

/-- The transcript suffix produced by `k` rounds run from 0-based loop
index `start`: length `2k`, alternating `model_a`/`model_b` turns per
round, each stamped with the 1-based number of its emitting round. -/
def roundsShapeFrom (l : List TranscriptEntry) (start k : Nat) : Prop :=
  l.length = 2 * k ∧
  ∀ r, r < k →
    (l[2 * r]?.map fun e => (e.round, e.speaker))
        = some (start + r + 1, "model_a") ∧
    (l[2 * r + 1]?.map fun e => (e.round, e.speaker))
        = some (start + r + 1, "model_b")

theorem roundsShapeFrom_nil (start : Nat) : roundsShapeFrom [] start 0 :=
  ⟨rfl, fun r hr => absurd hr (Nat.not_lt_zero r)⟩

theorem roundsShapeFrom_cons (start k : Nat) (ca cb : String)
    (l : List TranscriptEntry) (h : roundsShapeFrom l (start + 1) k) :
    roundsShapeFrom
      ({ round := start + 1, speaker := "model_a", content := ca }
        :: { round := start + 1, speaker := "model_b", content := cb } :: l)
      start (k + 1) := by
  obtain ⟨hlen, hidx⟩ := h
  constructor
  · simp [hlen]
    omega
  · intro r hr
    match r with
    | 0 => refine ⟨?_, ?_⟩ <;> simp
    | r + 1 =>
        have h2 : 2 * (r + 1) = 2 * r + 1 + 1 := by omega
        rw [h2, List.getElem?_cons_succ, List.getElem?_cons_succ,
          List.getElem?_cons_succ, List.getElem?_cons_succ]
        have h4 := hidx r (by omega)
        have h5 : start + 1 + r + 1 = start + (r + 1) + 1 := by omega
        rw [h5] at h4
        exact h4

/-- With a positive frequency, `k` loop iterations never raise and append
exactly the well-shaped `2k`-entry transcript suffix. -/
theorem runLoop_transcript (net : RunNet) (f : Nat) (hf : f ≠ 0) :
    ∀ (k n : Nat) (s : RunState), ∃ l,
      (runLoop net f n k s).2 = none ∧
      (runLoop net f n k s).1.orch.dialogue_history
        = s.orch.dialogue_history ++ l ∧
      roundsShapeFrom l n k := by
  intro k
  induction k with
  | zero =>
      intro n s
      exact ⟨[], rfl, by simp [runLoop], roundsShapeFrom_nil n⟩
  | succ k ih =>
      intro n s
      rw [runLoop_succ net f hf n k s]
      obtain ⟨l, hnone, hhist, hshape⟩ := ih (n + 1) (runRound net f n s).1
      refine ⟨{ round := n + 1, speaker := "model_a", content := roundRespA net s }
          :: { round := n + 1, speaker := "model_b", content := roundRespB net s }
          :: l, hnone, ?_, roundsShapeFrom_cons n k _ _ l hshape⟩
      rw [hhist, runRound_hist net f n s]
      simp

/-- With a positive frequency a run never raises; the concluding commentary
call changes neither the transcript nor the loop instrumentation, except
for counting one more commentator invocation. -/
theorem run_dialogue_proj (orch : DialogueOrchestrator) (net : RunNet)
    (topic : String) (R f : Nat) (hf : f ≠ 0) :
    (orch.run_dialogue net topic R f).2 = none ∧
    (orch.run_dialogue net topic R f).1.orch.dialogue_history
      = (runLoop net f 0 R (RunState.start orch topic)).1.orch.dialogue_history ∧
    (orch.run_dialogue net topic R f).1.a_prompts
      = (runLoop net f 0 R (RunState.start orch topic)).1.a_prompts ∧
    (orch.run_dialogue net topic R f).1.b_replies
      = (runLoop net f 0 R (RunState.start orch topic)).1.b_replies ∧
    (orch.run_dialogue net topic R f).1.commentary_rounds
      = (runLoop net f 0 R (RunState.start orch topic)).1.commentary_rounds ∧
    (orch.run_dialogue net topic R f).1.commentator_calls
      = (runLoop net f 0 R (RunState.start orch topic)).1.commentator_calls + 1 := by
  obtain ⟨l, hnone, hhist, hshape⟩ :=
    runLoop_transcript net f hf R 0 (RunState.start orch topic)
  have hpair : runLoop net f 0 R (RunState.start orch topic)
      = ((runLoop net f 0 R (RunState.start orch topic)).1, none) := by
    rw [← hnone]
  simp only [DialogueOrchestrator.run_dialogue]
  rw [hpair]
  exact ⟨rfl, rfl, rfl, rfl, rfl, rfl⟩

/-- Claim C2: a run of R rounds (positive commentary frequency; any network
behaviour, since failed calls still return reply strings) yields a
transcript of exactly 2R records, alternating `model_a` then `model_b`
within each round, each record stamped with its emitting round's 1-based
index, and round fields monotonically non-decreasing. -/
theorem claim_C2_transcript_ordering (net : RunNet) (url : String)
    (a b cm : ModelClient) (topic : String) (R f : Nat) (hf : f ≠ 0) :
    (((DialogueOrchestrator.init url a b cm).run_dialogue
        net topic R f).1.orch.dialogue_history).length = 2 * R ∧
    (∀ r, r < R →
      ((((DialogueOrchestrator.init url a b cm).run_dialogue
          net topic R f).1.orch.dialogue_history)[2 * r]?.map
            fun e => (e.round, e.speaker)) = some (r + 1, "model_a") ∧
      ((((DialogueOrchestrator.init url a b cm).run_dialogue
          net topic R f).1.orch.dialogue_history)[2 * r + 1]?.map
            fun e => (e.round, e.speaker)) = some (r + 1, "model_b")) ∧
    (∀ i j : Nat, i ≤ j → ∀ ei ej : TranscriptEntry,
      (((DialogueOrchestrator.init url a b cm).run_dialogue
          net topic R f).1.orch.dialogue_history)[i]? = some ei →
      (((DialogueOrchestrator.init url a b cm).run_dialogue
          net topic R f).1.orch.dialogue_history)[j]? = some ej →
      ei.round ≤ ej.round) := by
  obtain ⟨hn, hh, _, _, _, _⟩ :=
    run_dialogue_proj (DialogueOrchestrator.init url a b cm) net topic R f hf
  obtain ⟨l, hnone, hhist, hlen, hpos⟩ :=
    runLoop_transcript net f hf R 0
      (RunState.start (DialogueOrchestrator.init url a b cm) topic)
  have ht : ((DialogueOrchestrator.init url a b cm).run_dialogue
      net topic R f).1.orch.dialogue_history = l := by
    rw [hh, hhist]
    rfl
  rw [ht]
  have hpos0 : ∀ r, r < R →
      (l[2 * r]?.map fun e => (e.round, e.speaker)) = some (r + 1, "model_a") ∧
      (l[2 * r + 1]?.map fun e => (e.round, e.speaker))
        = some (r + 1, "model_b") := by
    intro r hr
    have := hpos r hr
    simpa using this
  have hround : ∀ i ei, l[i]? = some ei → ei.round = i / 2 + 1 := by
    intro i ei hei
    have hi : i < 2 * R := by
      by_contra hcon
      have hnone2 : l[i]? = none := List.getElem?_eq_none (by omega)
      rw [hnone2] at hei
      exact Option.noConfusion hei
    rcases Nat.even_or_odd i with he | ho
    · obtain ⟨m, hm⟩ := he
      have hmr : m < R := by omega
      have h1 := (hpos0 m hmr).1
      rw [show 2 * m = i by omega, hei] at h1
      simp at h1
      omega
    · obtain ⟨m, hm⟩ := ho
      have hmr : m < R := by omega
      have h1 := (hpos0 m hmr).2
      rw [show 2 * m + 1 = i by omega, hei] at h1
      simp at h1
      omega
  refine ⟨hlen, hpos0, ?_⟩
  intro i j hij ei ej hei hej
  rw [hround i ei hei, hround j ej hej]
  omega

/-! ## Claim C3: commentary cadence -/

/-- The 1-based round numbers in the window `(n, n+k]` at which the
commentary trigger `(round_num + 1) % f == 0` fires, in order. -/
def multiplesIn (f : Nat) : Nat → Nat → List Nat
  | _, 0 => []
  | n, k + 1 =>
      (if (n + 1) % f = 0 then [n + 1] else []) ++ multiplesIn f (n + 1) k

/-- The loop records exactly the trigger rounds of its window, and counts
one commentator invocation per trigger. -/
theorem runLoop_commentary (net : RunNet) (f : Nat) (hf : f ≠ 0) :
    ∀ (k n : Nat) (s : RunState),
      (runLoop net f n k s).1.commentary_rounds
        = s.commentary_rounds ++ multiplesIn f n k ∧
      (runLoop net f n k s).1.commentator_calls
        = s.commentator_calls + (multiplesIn f n k).length := by
  intro k
  induction k with
  | zero => intro n s; simp [runLoop, multiplesIn]
  | succ k ih =>
      intro n s
      rw [runLoop_succ net f hf n k s]
      obtain ⟨h1, h2⟩ := ih (n + 1) (runRound net f n s).1
      obtain ⟨_, _, _, hcr, hcc⟩ := runRound_ghosts net f n s hf
      refine ⟨?_, ?_⟩
      · rw [h1, hcr, multiplesIn]
        simp
      · rw [h2, hcc, multiplesIn]
        by_cases hmod : (n + 1) % f = 0
        · simp [hmod]
          omega
        · simp [hmod]

/-- Closed form: the trigger rounds of `(n, n+k]` are the multiples of `f`
in that window. -/
theorem multiplesIn_eq (f : Nat) :
    ∀ (k n : Nat), multiplesIn f n k
      = (List.range ((n + k) / f - n / f)).map (fun i => (n / f + 1 + i) * f) := by
  intro k
  induction k with
  | zero => intro n; simp [multiplesIn]
  | succ k ih =>
      intro n
      rw [multiplesIn, ih (n + 1)]
      have hnk : n + 1 + k = n + (k + 1) := by omega
      rw [hnk]
      by_cases hmod : (n + 1) % f = 0
      · rw [if_pos hmod]
        have hdvd : f ∣ (n + 1) := Nat.dvd_of_mod_eq_zero hmod
        have hsucc : (n + 1) / f = n / f + 1 := by
          rw [Nat.succ_div, if_pos hdvd]
        have hval : (n / f + 1) * f = n + 1 := by
          rw [← hsucc]
          exact Nat.div_mul_cancel hdvd
        have hge : n / f + 1 ≤ (n + (k + 1)) / f := by
          rw [← hsucc]
          exact Nat.div_le_div_right (by omega)
        have hcount : (n + (k + 1)) / f - n / f
            = ((n + (k + 1)) / f - (n + 1) / f) + 1 := by
          rw [hsucc]
          omega
        rw [hcount, List.range_succ_eq_map, List.map_cons, List.map_map]
        have hg : ((fun i => (n / f + 1 + i) * f) ∘ Nat.succ)
            = (fun i => ((n + 1) / f + 1 + i) * f) := by
          funext i
          simp only [Function.comp, hsucc, Nat.succ_eq_add_one]
          ring
        rw [hg, List.singleton_append]
        have hz : (n / f + 1 + 0) * f = n + 1 := by
          rw [Nat.add_zero]
          exact hval
        rw [hz]
      · rw [if_neg hmod]
        have hndvd : ¬ f ∣ (n + 1) := fun hdvd =>
          hmod (Nat.mod_eq_zero_of_dvd hdvd)
        have hsucc : (n + 1) / f = n / f := by
          rw [Nat.succ_div, if_neg hndvd, Nat.add_zero]
        rw [List.nil_append, hsucc]

/-- Claim C3: with R rounds and positive frequency f the commentator is
invoked exactly `R / f` times inside the loop, at rounds `f, 2f, 3f, ...`
in order, and its total number of invocations over the run is `R / f + 1`:
exactly one additional terminal invocation after round R, whatever the
cadence alignment. -/
theorem claim_C3_commentary_cadence (net : RunNet) (url : String)
    (a b cm : ModelClient) (topic : String) (R f : Nat) (hf : f ≠ 0) :
    ((DialogueOrchestrator.init url a b cm).run_dialogue
        net topic R f).1.commentary_rounds
      = (List.range (R / f)).map (fun i => (i + 1) * f) ∧
    (((DialogueOrchestrator.init url a b cm).run_dialogue
        net topic R f).1.commentary_rounds).length = R / f ∧
    ((DialogueOrchestrator.init url a b cm).run_dialogue
        net topic R f).1.commentator_calls = R / f + 1 := by
  obtain ⟨_, _, _, _, hcr, hcc⟩ :=
    run_dialogue_proj (DialogueOrchestrator.init url a b cm) net topic R f hf
  obtain ⟨h1, h2⟩ := runLoop_commentary net f hf R 0
    (RunState.start (DialogueOrchestrator.init url a b cm) topic)
  have hstart1 : (RunState.start (DialogueOrchestrator.init url a b cm)
      topic).commentary_rounds = [] := rfl
  have hstart2 : (RunState.start (DialogueOrchestrator.init url a b cm)
      topic).commentator_calls = 0 := rfl
  rw [hstart1, List.nil_append] at h1
  rw [hstart2, Nat.zero_add] at h2
  have hm := multiplesIn_eq f R 0
  have hz : (0 + R) / f - 0 / f = R / f := by
    rw [Nat.zero_add, Nat.zero_div, Nat.sub_zero]
  rw [hz] at hm
  have hfun : (List.range (R / f)).map (fun i => (0 / f + 1 + i) * f)
      = (List.range (R / f)).map (fun i => (i + 1) * f) := by
    apply List.map_congr_left
    intro i _
    rw [Nat.zero_div]
    ring
  rw [hfun] at hm
  refine ⟨?_, ?_, ?_⟩
  · rw [hcr, h1, hm]
  · rw [hcr, h1, hm, List.length_map, List.length_range]
  · rw [hcc, h2, hm, List.length_map, List.length_range]

/-! ## Claim C4: prompt threading -/

/-- Across `k` non-raising rounds, the recorded A-prompts extended by the
pending `current_prompt` equal the initial pending prompt followed by the
B-replies of each round, in order. -/
theorem runLoop_threading (net : RunNet) (f : Nat) (hf : f ≠ 0) :
    ∀ (k n : Nat) (s : RunState), ∃ bs : List String,
      (runLoop net f n k s).1.b_replies = s.b_replies ++ bs ∧
      bs.length = k ∧
      (runLoop net f n k s).1.a_prompts
          ++ [(runLoop net f n k s).1.current_prompt]
        = s.a_prompts ++ s.current_prompt :: bs ∧
      (runLoop net f n k s).1.a_prompts.length = s.a_prompts.length + k := by
  intro k
  induction k with
  | zero =>
      intro n s
      exact ⟨[], by simp [runLoop], rfl, by simp [runLoop], by simp [runLoop]⟩
  | succ k ih =>
      intro n s
      rw [runLoop_succ net f hf n k s]
      obtain ⟨hap, hbr, hcp, _, _⟩ := runRound_ghosts net f n s hf
      obtain ⟨bs, h1, h2, h3, h4⟩ := ih (n + 1) (runRound net f n s).1
      refine ⟨roundRespB net s :: bs, ?_, by simp [h2], ?_, ?_⟩
      · rw [h1, hbr]
        simp
      · rw [h3, hap, hcp]
        simp
      · rw [h4, hap]
        simp
        omega

/-- Claim C4: in a fresh run of R rounds (positive frequency), exactly R
prompts are passed to primary A and R replies returned by primary B; the
first A-prompt is the initial topic verbatim, and for every round
`r + 1 < R` (0-based) the next round's A-prompt is that round's B-reply. -/
theorem claim_C4_prompt_threading (net : RunNet) (url : String)
    (a b cm : ModelClient) (topic : String) (R f : Nat) (hf : f ≠ 0) :
    (((DialogueOrchestrator.init url a b cm).run_dialogue
        net topic R f).1.a_prompts).length = R ∧
    (((DialogueOrchestrator.init url a b cm).run_dialogue
        net topic R f).1.b_replies).length = R ∧
    (0 < R →
      (((DialogueOrchestrator.init url a b cm).run_dialogue
          net topic R f).1.a_prompts)[0]? = some topic) ∧
    (∀ r : Nat, r + 1 < R →
      (((DialogueOrchestrator.init url a b cm).run_dialogue
          net topic R f).1.a_prompts)[r + 1]?
        = (((DialogueOrchestrator.init url a b cm).run_dialogue
          net topic R f).1.b_replies)[r]?) := by
  obtain ⟨_, _, hap, hbr, _, _⟩ :=
    run_dialogue_proj (DialogueOrchestrator.init url a b cm) net topic R f hf
  obtain ⟨bs, h1, h2, h3, h4⟩ := runLoop_threading net f hf R 0
    (RunState.start (DialogueOrchestrator.init url a b cm) topic)
  have hs1 : (RunState.start (DialogueOrchestrator.init url a b cm)
      topic).b_replies = [] := rfl
  have hs2 : (RunState.start (DialogueOrchestrator.init url a b cm)
      topic).a_prompts = [] := rfl
  have hs3 : (RunState.start (DialogueOrchestrator.init url a b cm)
      topic).current_prompt = topic := rfl
  rw [hs1, List.nil_append] at h1
  rw [hs2, hs3, List.nil_append] at h3
  rw [hs2, List.length_nil, Nat.zero_add] at h4
  have hget : ∀ i : Nat, i < R →
      ((runLoop net f 0 R (RunState.start (DialogueOrchestrator.init url a b cm)
        topic)).1.a_prompts)[i]? = (topic :: bs)[i]? := by
    intro i hi
    have hlt : i < ((runLoop net f 0 R
        (RunState.start (DialogueOrchestrator.init url a b cm)
          topic)).1.a_prompts).length := by
      rw [h4]
      exact hi
    have hsplit : ((runLoop net f 0 R
          (RunState.start (DialogueOrchestrator.init url a b cm)
            topic)).1.a_prompts
        ++ [(runLoop net f 0 R
          (RunState.start (DialogueOrchestrator.init url a b cm)
            topic)).1.current_prompt])[i]?
        = ((runLoop net f 0 R
          (RunState.start (DialogueOrchestrator.init url a b cm)
            topic)).1.a_prompts)[i]? := List.getElem?_append_left hlt
    rw [← hsplit, h3]
  refine ⟨?_, ?_, ?_, ?_⟩
  · rw [hap, h4]
  · rw [hbr, h1, h2]
  · intro hR
    rw [hap, hget 0 hR, List.getElem?_cons_zero]
  · intro r hr
    rw [hap, hbr, h1, hget (r + 1) hr, List.getElem?_cons_succ]

/-! ## Claim C5: failure tolerance -/

theorem roundRespA_exn (net : RunNet) (s : RunState)
    (hnet : ∀ (i : Nat) (pl : Payload), ∃ m, net i pl = CallResult.exn m) :
    ∃ m, roundRespA net s = "Error: " ++ m := by
  apply generate_response_fail_snd
  intro r hr
  obtain ⟨m, hm⟩ := hnet s.calls
    (s.orch.model_a.build_payload s.current_prompt 500)
  rw [hm] at hr
  exact CallResult.noConfusion hr

theorem roundRespB_exn (net : RunNet) (s : RunState)
    (hnet : ∀ (i : Nat) (pl : Payload), ∃ m, net i pl = CallResult.exn m) :
    ∃ m, roundRespB net s = "Error: " ++ m := by
  apply generate_response_fail_snd
  intro r hr
  obtain ⟨m, hm⟩ := hnet (s.calls + 1)
    (s.orch.model_b.build_payload (roundRespA net s) 500)
  rw [hm] at hr
  exact CallResult.noConfusion hr

/-- If every network call raises, every transcript entry the loop appends
carries an error-string content. -/
theorem runLoop_error_contents (net : RunNet) (f : Nat) (hf : f ≠ 0)
    (hnet : ∀ (i : Nat) (pl : Payload), ∃ m, net i pl = CallResult.exn m) :
    ∀ (k n : Nat) (s : RunState),
      ∀ e ∈ (runLoop net f n k s).1.orch.dialogue_history,
        e ∈ s.orch.dialogue_history ∨ ∃ m, e.content = "Error: " ++ m := by
  intro k
  induction k with
  | zero =>
      intro n s e he
      left
      simpa [runLoop] using he
  | succ k ih =>
      intro n s e he
      rw [runLoop_succ net f hf n k s] at he
      rcases ih (n + 1) (runRound net f n s).1 e he with hin | herr
      · rw [runRound_hist net f n s] at hin
        rcases List.mem_append.mp hin with h | h
        · left
          exact h
        · right
          rcases List.mem_cons.mp h with hea | h2
          · obtain ⟨m, hm⟩ := roundRespA_exn net s hnet
            exact ⟨m, by rw [hea, hm]⟩
          · rcases List.mem_cons.mp h2 with heb | h3
            · obtain ⟨m, hm⟩ := roundRespB_exn net s hnet
              exact ⟨m, by rw [heb, hm]⟩
            · exact absurd h3 (List.not_mem_nil e)
      · right
        exact herr

/-- Claim C5: even when every network call fails with a transport error,
a fresh run (positive frequency) completes all R rounds without raising,
and its transcript holds exactly 2R records whose contents are all
synthetic error strings. -/
theorem claim_C5_failure_tolerance (net : RunNet) (url : String)
    (a b cm : ModelClient) (topic : String) (R f : Nat) (hf : f ≠ 0)
    (hnet : ∀ (i : Nat) (pl : Payload), ∃ m, net i pl = CallResult.exn m) :
    ((DialogueOrchestrator.init url a b cm).run_dialogue net topic R f).2
      = none ∧
    (((DialogueOrchestrator.init url a b cm).run_dialogue
        net topic R f).1.orch.dialogue_history).length = 2 * R ∧
    ∀ e ∈ ((DialogueOrchestrator.init url a b cm).run_dialogue
        net topic R f).1.orch.dialogue_history,
      ∃ m, e.content = "Error: " ++ m := by
  obtain ⟨hn, hh, _, _, _, _⟩ :=
    run_dialogue_proj (DialogueOrchestrator.init url a b cm) net topic R f hf
  obtain ⟨l, _, hhist, hlen, _⟩ := runLoop_transcript net f hf R 0
    (RunState.start (DialogueOrchestrator.init url a b cm) topic)
  refine ⟨hn, ?_, ?_⟩
  · rw [hh, hhist]
    have hs : (RunState.start (DialogueOrchestrator.init url a b cm)
        topic).orch.dialogue_history = [] := rfl
    rw [hs, List.nil_append]
    exact hlen
  · intro e he
    rw [hh] at he
    rcases runLoop_error_contents net f hf hnet R 0
      (RunState.start (DialogueOrchestrator.init url a b cm) topic) e he with
      hin | herr
    · exact absurd hin (List.not_mem_nil e)
    · exact herr

/-! ## Claims C8 and C9 -/

/-- Claim C8: a round in which commentary triggers appends exactly the two
primary turns to the transcript — the commentator's output is never
appended — while the commentator participant itself is updated by a normal
response-generation call on the synthesized recent-exchange prompt. -/
theorem claim_C8_commentary_frame (net : RunNet) (f n : Nat) (s : RunState)
    (hf : f ≠ 0) (hc : (n + 1) % f = 0) :
    (runRound net f n s).1.orch.dialogue_history
      = s.orch.dialogue_history
        ++ [{ round := n + 1, speaker := "model_a", content := roundRespA net s },
            { round := n + 1, speaker := "model_b", content := roundRespB net s }] ∧
    (runRound net f n s).1.orch.commentator
      = (s.orch.commentator.generate_response (net (s.calls + 2))
          (recent_exchange s.orch.model_a.name (roundRespA net s)
            s.orch.model_b.name (roundRespB net s))).1 :=
  ⟨runRound_hist net f n s, by
    rw [runRound_commentator net f n s hf, if_pos hc]⟩

/-- Claim C9: with commentary frequency 0 and at least one round, the run
raises `ZeroDivisionError` while evaluating the commentary trigger of
round 1 — after both of round 1's turns were generated and appended to the
transcript — instead of completing or rejecting the configuration
eagerly. -/
theorem claim_C9_zero_frequency_raises (net : RunNet) (url : String)
    (a b cm : ModelClient) (topic : String) (R : Nat) (hR : 0 < R) :
    ((DialogueOrchestrator.init url a b cm).run_dialogue net topic R 0).2
      = some RunError.zeroDivision ∧
    (((DialogueOrchestrator.init url a b cm).run_dialogue
        net topic R 0).1.orch.dialogue_history).map
        (fun e => (e.round, e.speaker))
      = [(1, "model_a"), (1, "model_b")] := by
  obtain ⟨k, rfl⟩ : ∃ k, R = k + 1 := ⟨R - 1, by omega⟩
  have hz := runRound_zero_raises net 0
    (RunState.start (DialogueOrchestrator.init url a b cm) topic)
  have hpair : runRound net 0 0
      (RunState.start (DialogueOrchestrator.init url a b cm) topic)
      = ((runRound net 0 0
          (RunState.start (DialogueOrchestrator.init url a b cm) topic)).1,
         some RunError.zeroDivision) := by
    rw [← hz]
  have hloop : runLoop net 0 0 (k + 1)
      (RunState.start (DialogueOrchestrator.init url a b cm) topic)
      = ((runRound net 0 0
          (RunState.start (DialogueOrchestrator.init url a b cm) topic)).1,
         some RunError.zeroDivision) := by
    simp only [runLoop]
    rw [hpair]
  simp only [DialogueOrchestrator.run_dialogue]
  rw [hloop]
  refine ⟨rfl, ?_⟩
  rw [runRound_hist net 0 0
    (RunState.start (DialogueOrchestrator.init url a b cm) topic)]
  have hs : (RunState.start (DialogueOrchestrator.init url a b cm)
      topic).orch.dialogue_history = [] := rfl
  rw [hs, List.nil_append]
  rfl

/-! ## Concrete witnesses -/

/-- A network that always answers 200 with the reply `"ok"`. -/
def wNet : RunNet := fun _ _ => CallResult.ok "ok"

/-- A network on which every call raises a transport exception. -/
def wErrNet : RunNet := fun _ _ => CallResult.exn "boom"

def wA : ModelClient := ModelClient.init "Alpha" "model-a" ""

def wB : ModelClient := ModelClient.init "Beta" "model-b" ""

def wC : ModelClient := ModelClient.init "Gamma" "model-c" ""

/-- Witness for C2 on a concrete 1-round run. -/
theorem claim_C2_witness :
    (1 : Nat) ≠ 0 ∧
    ((((DialogueOrchestrator.init "url" wA wB wC).run_dialogue
        wNet "topic" 1 1).1.orch.dialogue_history).length = 2 * 1 ∧
    (∀ r, r < 1 →
      ((((DialogueOrchestrator.init "url" wA wB wC).run_dialogue
          wNet "topic" 1 1).1.orch.dialogue_history)[2 * r]?.map
            fun e => (e.round, e.speaker)) = some (r + 1, "model_a") ∧
      ((((DialogueOrchestrator.init "url" wA wB wC).run_dialogue
          wNet "topic" 1 1).1.orch.dialogue_history)[2 * r + 1]?.map
            fun e => (e.round, e.speaker)) = some (r + 1, "model_b")) ∧
    (∀ i j : Nat, i ≤ j → ∀ ei ej : TranscriptEntry,
      (((DialogueOrchestrator.init "url" wA wB wC).run_dialogue
          wNet "topic" 1 1).1.orch.dialogue_history)[i]? = some ei →
      (((DialogueOrchestrator.init "url" wA wB wC).run_dialogue
          wNet "topic" 1 1).1.orch.dialogue_history)[j]? = some ej →
      ei.round ≤ ej.round)) :=
  ⟨by decide,
   claim_C2_transcript_ordering wNet "url" wA wB wC "topic" 1 1 (by decide)⟩

/-- Witness for C3 on the spec's own scenario R = 3, f = 2. -/
theorem claim_C3_witness :
    (2 : Nat) ≠ 0 ∧
    (((DialogueOrchestrator.init "url" wA wB wC).run_dialogue
        wNet "topic" 3 2).1.commentary_rounds
      = (List.range (3 / 2)).map (fun i => (i + 1) * 2) ∧
    (((DialogueOrchestrator.init "url" wA wB wC).run_dialogue
        wNet "topic" 3 2).1.commentary_rounds).length = 3 / 2 ∧
    ((DialogueOrchestrator.init "url" wA wB wC).run_dialogue
        wNet "topic" 3 2).1.commentator_calls = 3 / 2 + 1) :=
  ⟨by decide,
   claim_C3_commentary_cadence wNet "url" wA wB wC "topic" 3 2 (by decide)⟩

/-- Witness for C4 on a concrete 2-round run. -/
theorem claim_C4_witness :
    (1 : Nat) ≠ 0 ∧
    ((((DialogueOrchestrator.init "url" wA wB wC).run_dialogue
        wNet "topic" 2 1).1.a_prompts).length = 2 ∧
    (((DialogueOrchestrator.init "url" wA wB wC).run_dialogue
        wNet "topic" 2 1).1.b_replies).length = 2 ∧
    (0 < 2 →
      (((DialogueOrchestrator.init "url" wA wB wC).run_dialogue
          wNet "topic" 2 1).1.a_prompts)[0]? = some "topic") ∧
    (∀ r : Nat, r + 1 < 2 →
      (((DialogueOrchestrator.init "url" wA wB wC).run_dialogue
          wNet "topic" 2 1).1.a_prompts)[r + 1]?
        = (((DialogueOrchestrator.init "url" wA wB wC).run_dialogue
          wNet "topic" 2 1).1.b_replies)[r]?)) :=
  ⟨by decide,
   claim_C4_prompt_threading wNet "url" wA wB wC "topic" 2 1 (by decide)⟩

/-- Witness for C5 on a concrete 2-round run whose every call fails. -/
theorem claim_C5_witness :
    ((2 : Nat) ≠ 0 ∧
      ∀ (i : Nat) (pl : Payload), ∃ m, wErrNet i pl = CallResult.exn m) ∧
    (((DialogueOrchestrator.init "url" wA wB wC).run_dialogue
        wErrNet "topic" 2 2).2 = none ∧
    (((DialogueOrchestrator.init "url" wA wB wC).run_dialogue
        wErrNet "topic" 2 2).1.orch.dialogue_history).length = 2 * 2 ∧
    ∀ e ∈ ((DialogueOrchestrator.init "url" wA wB wC).run_dialogue
        wErrNet "topic" 2 2).1.orch.dialogue_history,
      ∃ m, e.content = "Error: " ++ m) :=
  ⟨⟨by decide, fun _ _ => ⟨"boom", rfl⟩⟩,
   claim_C5_failure_tolerance wErrNet "url" wA wB wC "topic" 2 2 (by decide)
     (fun _ _ => ⟨"boom", rfl⟩)⟩

/-- Witness for C8 on a commentary-triggering round (f = 1, round 1). -/
theorem claim_C8_witness :
    ((1 : Nat) ≠ 0 ∧ (0 + 1) % 1 = 0) ∧
    ((runRound wNet 1 0
        (RunState.start (DialogueOrchestrator.init "url" wA wB wC)
          "topic")).1.orch.dialogue_history
      = (RunState.start (DialogueOrchestrator.init "url" wA wB wC)
          "topic").orch.dialogue_history
        ++ [{ round := 0 + 1, speaker := "model_a",
              content := roundRespA wNet
                (RunState.start (DialogueOrchestrator.init "url" wA wB wC)
                  "topic") },
            { round := 0 + 1, speaker := "model_b",
              content := roundRespB wNet
                (RunState.start (DialogueOrchestrator.init "url" wA wB wC)
                  "topic") }] ∧
    (runRound wNet 1 0
        (RunState.start (DialogueOrchestrator.init "url" wA wB wC)
          "topic")).1.orch.commentator
      = ((RunState.start (DialogueOrchestrator.init "url" wA wB wC)
            "topic").orch.commentator.generate_response
          (wNet ((RunState.start (DialogueOrchestrator.init "url" wA wB wC)
            "topic").calls + 2))
          (recent_exchange
            (RunState.start (DialogueOrchestrator.init "url" wA wB wC)
              "topic").orch.model_a.name
            (roundRespA wNet
              (RunState.start (DialogueOrchestrator.init "url" wA wB wC)
                "topic"))
            (RunState.start (DialogueOrchestrator.init "url" wA wB wC)
              "topic").orch.model_b.name
            (roundRespB wNet
              (RunState.start (DialogueOrchestrator.init "url" wA wB wC)
                "topic")))).1) :=
  ⟨⟨by decide, by decide⟩,
   claim_C8_commentary_frame wNet 1 0
     (RunState.start (DialogueOrchestrator.init "url" wA wB wC) "topic")
     (by decide) (by decide)⟩

/-- Witness for C9 on a concrete 1-round run with zero frequency. -/
theorem claim_C9_witness :
    (0 : Nat) < 1 ∧
    (((DialogueOrchestrator.init "url" wA wB wC).run_dialogue
        wNet "topic" 1 0).2 = some RunError.zeroDivision ∧
    (((DialogueOrchestrator.init "url" wA wB wC).run_dialogue
        wNet "topic" 1 0).1.orch.dialogue_history).map
        (fun e => (e.round, e.speaker))
      = [(1, "model_a"), (1, "model_b")]) :=
  ⟨by decide,
   claim_C9_zero_frequency_raises wNet "url" wA wB wC "topic" 1 (by decide)⟩
